import Mathlib

/-!
Verification development for the couchbase-rest-sdk client library.

The JavaScript source is shallowly embedded: JS runtime values are modelled
by the inductive `JsVal` (JS strings are Lean `String`s, JS numbers are `Int`
— only integral values occur in this code base), JS objects are association
lists of string keys in insertion order, and promise outcomes are `Except`
values.  Operations that can raise a `TypeError` in JS are modelled with
`Option`, returning `none` on the crashing inputs.
-/

namespace CouchbaseSdk

/-- A JavaScript runtime value, as used by the SDK: `undefined`, `null`,
booleans, (integral) numbers, strings, arrays, and plain objects whose own
enumerable fields are kept in insertion order. -/
inductive JsVal where
  | und : JsVal
  | null : JsVal
  | bool : Bool → JsVal
  | num : Int → JsVal
  | str : String → JsVal
  | arr : List JsVal → JsVal
  | obj : List (String × JsVal) → JsVal

/-- Field lookup in a JS object's field list: the first binding wins
(JS objects have unique keys, so this is the only binding). -/
def objGet : List (String × JsVal) → String → Option JsVal
  | [], _ => none
  | (k', v') :: rest, k => if k' = k then some v' else objGet rest k

/-- JS property access `v[k]` on an arbitrary value: objects look the field
up, arrays and strings expose `length`, everything else yields `undefined`
(property access on primitives other than `null`/`undefined` is legal in JS
and yields `undefined` for unknown names). -/
def jsProp (v : JsVal) (k : String) : JsVal :=
  match v with
  | .obj fields => (objGet fields k).getD .und
  | .arr l => if k = "length" then .num l.length else .und
  | .str s => if k = "length" then .num s.length else .und
  | _ => .und

/-- JS truthiness. -/
def jsTruthy : JsVal → Bool
  | .und => false
  | .null => false
  | .bool b => b
  | .num n => n != 0
  | .str s => s != ""
  | .arr _ => true
  | .obj _ => true

/-- lodash `isEmpty`: `null`/`undefined`, booleans and numbers are empty;
strings and arrays are empty iff their length is zero; objects are empty iff
they have no own enumerable keys. -/
def isEmptyVal : JsVal → Bool
  | .und => true
  | .null => true
  | .bool _ => true
  | .num _ => true
  | .str s => s == ""
  | .arr l => l.isEmpty
  | .obj fields => fields.isEmpty

/-- lodash `isObject`: true exactly for objects and arrays (functions are not
modelled). -/
def isObjectVal : JsVal → Bool
  | .obj _ => true
  | .arr _ => true
  | _ => false

/-- The values of an object in key-insertion order (for an array, its
elements): this is what the `reduce(errors, (previous, value) => ...)` call
in `Base.send` pushes, in iteration order. -/
def jsValues : JsVal → List JsVal
  | .obj fields => fields.map (·.2)
  | .arr l => l
  | _ => []

/-- Strict equality `v === n` against a number literal. -/
def JsVal.eqNum : JsVal → Int → Bool
  | .num m, n => m == n
  | _, _ => false

/-- Strict equality `v === s` against a string literal. -/
def JsVal.eqStr : JsVal → String → Bool
  | .str t, s => t == s
  | _, _ => false

namespace Base

/-- lodash `get(err, 'error', {})`: the `error` field of the rejection,
defaulting to an empty object only when the field resolves to `undefined`. -/
def errField (err : List (String × JsVal)) : JsVal :=
  match (objGet err "error").getD .und with
  | .und => .obj []
  | v => v

/-- lodash `get(err, 'error.errors', {})`: the `error.errors` path of the
rejection, defaulting to an empty object only when the path resolves to
`undefined`. -/
def errErrorsField (err : List (String × JsVal)) : JsVal :=
  match jsProp ((objGet err "error").getD .und) "errors" with
  | .und => .obj []
  | v => v

/-- Lines `errors = get(err, 'error.errors', {}); errors = isEmpty(errors) ?
get(err, 'error', {}) : errors;` of `Base.send`'s catch handler: the
extracted upstream error detail. -/
def errDetail (err : List (String × JsVal)) : JsVal :=
  if isEmptyVal (errErrorsField err) then errField err else errErrorsField err

/-- The fallback sentinel message of `Base.send`. -/
def unknownErrorMsg : String := "Unknown Error ¯\\_(ツ)_/¯"

/-- Line `errors = get(err, 'message', '')` of `Base.send`'s catch handler:
the transport error's message, defaulting to the empty string when the field
resolves to `undefined`. -/
def messageVal (err : List (String × JsVal)) : JsVal :=
  match (objGet err "message").getD .und with
  | .und => .str ""
  | v => v

/-- The catch handler of `Base.send` (src/app/base.js lines 272-296): the
value the returned promise rejects with, as a function of the upstream
rejection `err` (modelled as the field list of the error object). -/
def normalizeError (err : List (String × JsVal)) : JsVal :=
  let statusIs404 := ((objGet err "statusCode").getD .und).eqNum 404
  let errors :=
    if jsTruthy ((objGet err "error").getD .und) then
      let detail := errDetail err
      if isObjectVal detail then
        let flat := jsValues detail
        if !statusIs404 then
          match flat with
          | [] => JsVal.arr [.str unknownErrorMsg]
          | _ => JsVal.arr flat
        else JsVal.arr flat
      else detail
    else
      let m := messageVal err
      if jsTruthy m then JsVal.arr [m] else JsVal.obj err
  if !jsTruthy (jsProp errors "length") && statusIs404 then
    JsVal.arr [.str "Not Found"]
  else errors

/-- JS strings in the URL-construction code are modelled as character lists;
`endpoint.replace(/^\//, '')` removes a single leading slash when present. -/
def stripLeadSlash : List Char → List Char
  | '/' :: rest => rest
  | s => s

/-- The `uri` option built by `Base.send` (src/app/base.js line 250):
`${protocol}://${host}:${port}/${endpoint.replace(/^\//, '')}`. -/
def buildUri (protocol host : List Char) (port : Nat) (endpoint : List Char) :
    List Char :=
  protocol ++ "://".data ++ host ++ (':' :: (toString port).data)
    ++ ('/' :: stripLeadSlash endpoint)

end Base

mutual

/-- `err.message` coerced by the `Error` constructor: `String(v)` for defined
values (arrays join their elements with commas). -/
def jsToString : JsVal → String
  | .und => "undefined"
  | .null => "null"
  | .bool b => if b then "true" else "false"
  | .num n => toString n
  | .str s => s
  | .arr l => jsToStringArr l
  | .obj _ => "[object Object]"

def jsToStringArr : List JsVal → String
  | [] => ""
  | [v] => jsToString v
  | v :: rest => jsToString v ++ "," ++ jsToStringArr rest

end

/-- `new Error(v)`: a JS `Error` object (only its `message` field is
modelled) whose message is `""` when the argument is `undefined` and the
string coercion of the argument otherwise. -/
def newError (v : JsVal) : JsVal :=
  .obj [("message", .str (match v with | .und => "" | v => jsToString v))]

namespace Cluster

/-- `Cluster.ejectNode` (src/app/cluster.js lines 361-373) as a function of
the outcome of the underlying `this.post` call: the catch handler turns any
rejection `err` into `new Error(err.message)`; a success passes through. -/
def ejectNode (sendResult : Except JsVal JsVal) : Except JsVal JsVal :=
  match sendResult with
  | .ok v => .ok v
  | .error e => .error (newError (jsProp e "message"))

end Cluster

namespace Node

/-- `Node.failover` (src/unnamed/part_002 lines 192-211) as a function of the
outcome of the underlying `this.post` call: identical catch handler
`(err) => { throw new Error(err.message); }`. -/
def failover (sendResult : Except JsVal JsVal) : Except JsVal JsVal :=
  match sendResult with
  | .ok v => .ok v
  | .error e => .error (newError (jsProp e "message"))

/-- `Node.join` (src/unnamed/part_002 lines 265-294) as a function of the
outcome of the join POST, the `rebalance` flag, and the outcome of the
optional `this.cluster.rebalance()` call: the POST's rejection is re-wrapped
by the catch handler, the rebalance rejection propagates unchanged, and on
success the handle itself (modelled as `Unit`) is returned. -/
def join (postResult : Except JsVal JsVal) (rebalance : Bool)
    (rebalanceResult : Except JsVal JsVal) : Except JsVal Unit :=
  match postResult with
  | .error e => .error (newError (jsProp e "message"))
  | .ok _ =>
    if rebalance then
      match rebalanceResult with
      | .error e => .error e
      | .ok _ => .ok ()
    else .ok ()

/-- A node handle's connection fields as read by `Cluster.addNodes` and
`ServerGroup.addNodes`/`addNode`; `none` models an absent (`undefined`)
field. -/
structure Handle where
  cluster_protocol : Option String
  cluster_host : Option String
  cluster_port : Option Int
  node_host : Option String
  hostname : Option String
  services : Option String

end Node

/-- The cluster-level connection coordinates of the handle issuing the
requests (always present: the `Base` constructor defaults them). -/
structure ClusterCoords where
  cluster_protocol : String
  cluster_host : String
  cluster_port : Int
  username : String
  password : String

/-- The skip test of `addNodes`: the node's `cluster_protocol`,
`cluster_host` and `cluster_port` all strictly equal the calling handle's
own coordinates. -/
def isSelf (c : ClusterCoords) (n : Node.Handle) : Bool :=
  n.cluster_protocol == some c.cluster_protocol
    && n.cluster_host == some c.cluster_host
    && n.cluster_port == some c.cluster_port

/-- JS `a || b`. -/
def jsOr (a b : JsVal) : JsVal := if jsTruthy a then a else b

/-- An optional string field as a JS value. -/
def optVal : Option String → JsVal
  | some s => .str s
  | none => .und

/-- `hostname = node_host || hostname || cluster_host` as computed by both
`addNode` implementations. -/
def addNodeHostname (n : Node.Handle) : JsVal :=
  jsOr (optVal n.node_host) (jsOr (optVal n.hostname) (optVal n.cluster_host))

namespace Cluster

/-- The form body of the POST that `Cluster.addNode` (src/app/cluster.js
lines 340-353) issues to `/controller/addNode`. -/
structure AddNodeReq where
  hostname : JsVal
  services : JsVal
  user : String
  password : String

/-- `Cluster.addNode`: the request issued for one node. -/
def addNode (c : ClusterCoords) (n : Node.Handle) : AddNodeReq :=
  ⟨addNodeHostname n, optVal n.services, c.username, c.password⟩

/-- The loop of `Cluster.addNodes` (src/app/cluster.js lines 300-325): a node
whose coordinates equal the calling handle's is pushed as an already-resolved
promise (no request), otherwise `this.addNode(node)` is pushed. The returned
list is the sequence of add-node requests actually issued, in order. -/
def addNodesReqs (c : ClusterCoords) : List Node.Handle → List AddNodeReq
  | [] => []
  | n :: rest =>
    if isSelf c n then addNodesReqs c rest
    else addNode c n :: addNodesReqs c rest

/-- `Cluster.addNodes`: the issued requests, the resolved value (the full
`nodes` array), and whether `this.rebalance()` is then awaited. -/
def addNodes (c : ClusterCoords) (nodes : List Node.Handle) (rebalance : Bool) :
    List AddNodeReq × List Node.Handle × Bool :=
  (addNodesReqs c nodes, nodes, rebalance)

end Cluster

namespace ServerGroup

/-- The form body and target group of the POST that `ServerGroup.addNode`
(src/unnamed/part_000 lines 239-256) issues to
`/pools/{pool}/serverGroups/{uuid}/addNode` (modelled for a caller-supplied
truthy `uuid`, so no extra `details` lookup is made). -/
structure AddNodeReq where
  uuid : String
  hostname : JsVal
  services : JsVal
  user : String
  password : String

/-- `ServerGroup.addNode` for a known group `uuid`. -/
def addNode (c : ClusterCoords) (uuid : String) (n : Node.Handle) : AddNodeReq :=
  ⟨uuid, addNodeHostname n, optVal n.services, c.username, c.password⟩

/-- The loop of `ServerGroup.addNodes` (src/unnamed/part_000 lines 194-224),
same skip test as `Cluster.addNodes`. -/
def addNodesReqs (c : ClusterCoords) (uuid : String) :
    List Node.Handle → List AddNodeReq
  | [] => []
  | n :: rest =>
    if isSelf c n then addNodesReqs c uuid rest
    else addNode c uuid n :: addNodesReqs c uuid rest

/-- `ServerGroup.addNodes`: issued requests, resolved value, and whether
`this.cluster.rebalance()` is awaited (`rebalance && this.cluster`). -/
def addNodes (c : ClusterCoords) (uuid : String) (nodes : List Node.Handle)
    (rebalance : Bool) (hasCluster : Bool) :
    List AddNodeReq × List Node.Handle × Bool :=
  (addNodesReqs c uuid nodes, nodes, rebalance && hasCluster)

end ServerGroup

/-- A node entry of a fetched server group: the GET returns both `hostname`
(which may carry a `:port` suffix) and `otpNode`. -/
structure GNode where
  hostname : String
  otpNode : String

/-- A fetched server group: its name and node list (other fields of the GET
response are not read by `addMembers`). -/
structure Group where
  name : String
  nodes : List GNode

/-- A node entry of the written-back topology: the reduce in `addMembers`
pushes `{ otpNode }` objects only. -/
structure ONode where
  otpNode : String
deriving DecidableEq

/-- A server group as written back by `addMembers`'s PUT body. -/
structure GroupOut where
  name : String
  nodes : List ONode
deriving DecidableEq

/-- lodash `findIndex` with a `{name}` shorthand: the index of the first
match, `none` for `-1`. -/
def findIndex {α : Type} (p : α → Bool) : List α → Option Nat
  | [] => none
  | a :: rest => if p a then some 0 else (findIndex p rest).map (· + 1)

namespace ServerGroup

/-- `hostname.replace(/:[0-9]+$/, '')`: remove a trailing colon followed by
one or more digits, if present. -/
def stripPortChars (s : List Char) : List Char :=
  let r := s.reverse
  let ds := r.takeWhile (·.isDigit)
  if ds.isEmpty then s
  else
    match r.drop ds.length with
    | ':' :: rest => rest.reverse
    | _ => s

/-- `stripPortChars` on a `String`. -/
def stripPort (s : String) : String := ⟨stripPortChars s.data⟩

/-- The inner reduce of `addMembers` (src/unnamed/part_000 lines 156-164):
keep `{ otpNode }` for each group node whose port-stripped hostname is not
among the requested hosts. -/
def filterNodes (hosts : List String) : List GNode → List ONode
  | [] => []
  | n :: rest =>
    if hosts.contains (stripPort n.hostname) then filterNodes hosts rest
    else ⟨n.otpNode⟩ :: filterNodes hosts rest

/-- `s.replace(pat, repl)` for non-regex JS `String.replace`: replace the
first occurrence of `pat`; `dropLeft? pat s` is the remainder of `s` after a
leading occurrence of `pat`, when there is one. -/
def dropLeft? : List Char → List Char → Option (List Char)
  | [], s => some s
  | _ :: _, [] => none
  | p :: ps, c :: cs => if p = c then dropLeft? ps cs else none

/-- Replace the first occurrence of `pat` in `s` by `repl` (unchanged when
`pat` does not occur). -/
def replaceFirst (pat repl : List Char) (s : List Char) : List Char :=
  match dropLeft? pat s with
  | some rest => repl ++ rest
  | none =>
    match s with
    | [] => []
    | c :: cs => c :: replaceFirst pat repl cs

/-- `uri.replace(`/pools/${pool}/serverGroups?rev=`, '')`: the revision
token extracted from the fetched `uri` (src/unnamed/part_000 line 153). -/
def revOf (pool : String) (uri : String) : String :=
  ⟨replaceFirst ("/pools/" ++ pool ++ "/serverGroups?rev=").data [] uri.data⟩

/-- The single PUT issued at the end of `addMembers`: the complete group
list as its JSON body and the revision token as its query. -/
structure PutReq where
  groups : List GroupOut
  rev : String
deriving DecidableEq

/-- `server_groups.groups[index].nodes = concat(...)`: append `extra` to the
node list of the group at `index`, leaving every other group in place. -/
def setNodes : List GroupOut → Nat → List ONode → List GroupOut
  | [], _, _ => []
  | g :: rest, 0, extra => ⟨g.name, g.nodes ++ extra⟩ :: rest
  | g :: rest, Nat.succ i, extra => g :: setNodes rest i extra

/-- `ServerGroup.addMembers` (src/unnamed/part_000 lines 129-186) given the
requested hostnames (already string-normalized), the target group name, and
the GET response (`groups` plus its `uri` revision marker): every group's
node list is filtered, the `ns_1@`-prefixed requested hosts are appended to
the target group's list, and one PUT carries the whole list plus the
revision from the same fetch. `none` models the `TypeError` thrown when no
group has the target name (`findIndex` returns `-1` and
`server_groups.groups[-1]` is `undefined`). -/
def addMembers (pool : String) (hosts : List String) (name : String)
    (groups : List Group) (uri : String) : Option PutReq :=
  let filtered : List GroupOut :=
    groups.map fun g => ⟨g.name, filterNodes hosts g.nodes⟩
  match findIndex (fun g : GroupOut => g.name == name) filtered with
  | none => none
  | some i =>
    some ⟨setNodes filtered i (hosts.map fun h => ⟨"ns_1@" ++ h⟩),
      revOf pool uri⟩

end ServerGroup

namespace Bucket

/-- Caller-supplied bucket options, as consulted by
`Bucket.normalizeParams` (src/unnamed/part_001 lines 150-242): `opts k` is
`some v` when the caller's options object has own property `k` with value
`v`, and `none` when absent. `pick(options, Object.keys(defaults))` only ever
consults the recognized keys, so unrecognized keys need no representation. -/
def Opts := String → Option JsVal

/-- Direct property access `options.k` on the caller's options object. -/
def rawOpt (opts : Opts) (k : String) : JsVal := (opts k).getD .und

/-- The keys of the `defaults` object of `normalizeParams`, in insertion
order — which is the iteration order of the merged object, since `extend`
keeps the position of existing keys. -/
def bucketKeys : List String :=
  ["abort_outside_allowed_time", "allowed_time_period_start",
   "allowed_time_period_stop", "auth_type", "auto_compaction_defined",
   "bucket_priority", "bucket_type", "conflict_resolution_type",
   "database_fragmentation_percentage_threshold",
   "database_fragmentation_size_threshold", "document_replicas",
   "eviction_policy", "flush_enabled", "index_compaction_mode",
   "index_replicas", "name", "parallel_compaction", "ram_size",
   "sasl_password", "threads_number",
   "view_fragmentation_percentage_threshold",
   "view_fragmentation_size_threshold"]

/-- The `defaults` object of `normalizeParams` (src/unnamed/part_001 lines
151-174); `name` defaults to `this.name`, passed in as `bucketName`. -/
def defaults (bucketName : String) : String → JsVal
  | "abort_outside_allowed_time" => .bool false
  | "allowed_time_period_start" => .str ""
  | "allowed_time_period_stop" => .str ""
  | "auth_type" => .null
  | "auto_compaction_defined" => .bool false
  | "bucket_priority" => .str "high"
  | "bucket_type" => .str "membase"
  | "conflict_resolution_type" => .str "seqno"
  | "database_fragmentation_percentage_threshold" => .null
  | "database_fragmentation_size_threshold" => .null
  | "document_replicas" => .num 0
  | "eviction_policy" => .str "valueOnly"
  | "flush_enabled" => .bool false
  | "index_compaction_mode" => .str "circular"
  | "index_replicas" => .num 0
  | "name" => .str bucketName
  | "parallel_compaction" => .bool false
  | "ram_size" => .num 100
  | "sasl_password" => .null
  | "threads_number" => .num 3
  | "view_fragmentation_percentage_threshold" => .null
  | "view_fragmentation_size_threshold" => .null
  | _ => .und

/-- The `key_map` rename table of `normalizeParams` (src/unnamed/part_001
lines 175-191). -/
def keyMap : List (String × String) :=
  [("abort_outside_allowed_time", "allowedTimePeriod[abortOutside]"),
   ("auth_type", "authType"),
   ("conflict_resolution_type", "conflictResolutionType"),
   ("database_fragmentation_percentage_threshold",
     "databaseFragmentationThreshold[percentage]"),
   ("document_replicas", "replicaNumber"),
   ("eviction_policy", "evictionPolicy"),
   ("flush_enabled", "flushEnabled"),
   ("index_compaction_mode", "indexCompactionMode"),
   ("index_replicas", "replicaIndex"),
   ("parallel_compaction", "parallelDBAndViewCompaction"),
   ("ram_size", "ramQuotaMB"),
   ("name", "name"),
   ("sasl_password", "saslPassword"),
   ("threads_number", "threadsNumber"),
   ("view_fragmentation_percentage_threshold",
     "viewFragmentationThreshold[percentage]")]

/-- The merged value for key `k`: the caller's value when the key was
supplied (`extend` lets it override the default, including `null` and
`undefined`), the default otherwise. -/
def mergedVal (bucketName : String) (opts : Opts) (k : String) : JsVal :=
  match opts k with
  | some v => v
  | none => defaults bucketName k

/-- JS property assignment `result[k] = v` on an object's field list: an
existing key keeps its position and gets the new value, a new key is
appended. -/
def objSet : List (String × JsVal) → String → JsVal → List (String × JsVal)
  | [], k, v => [(k, v)]
  | (k', v') :: rest, k, v =>
    if k' = k then (k, v) :: rest else (k', v') :: objSet rest k v

/-- `value.split(':')`. -/
def jsSplit (s : String) : List String := s.splitOn ":"

/-- `value.split(':')[i]`: the `i`-th chunk, or `undefined` past the end. -/
def splitIdx (s : String) (i : Nat) : JsVal :=
  match (jsSplit s).get? i with
  | some t => .str t
  | none => .und

/-- `value * 1024 * 1024` (MB to bytes). A non-numeric value would produce
`NaN` in JS; `NaN` is modelled as `undefined` (both are falsy, and the
resulting field value is never inspected by the claims). -/
def jsMulMB : JsVal → JsVal
  | .num n => .num (n * 1024 * 1024)
  | _ => .und

/-- One iteration of the `reduce` switch in `normalizeParams`
(src/unnamed/part_001 lines 196-224), for a non-`null` merged `value`;
`none` models the `TypeError` thrown when `value.split(':')` is called on a
non-string. -/
def applyKey (result : List (String × JsVal)) (key : String) (value : JsVal) :
    Option (List (String × JsVal)) :=
  match key with
  | "allowed_time_period_start" =>
    match value with
    | .str s =>
      some (objSet (objSet result "allowedTimePeriod[fromHour]" (splitIdx s 0))
        "allowedTimePeriod[fromMinute]" (splitIdx s 1))
    | _ => none
  | "allowed_time_period_stop" =>
    match value with
    | .str s =>
      some (objSet (objSet result "allowedTimePeriod[toHour]" (splitIdx s 0))
        "allowedTimePeriod[toMinute]" (splitIdx s 1))
    | _ => none
  | "bucket_type" =>
    some (objSet result "bucketType"
      (if value.eqStr "couchbase" then .str "membase" else value))
  | "database_fragmentation_size_threshold" =>
    some (objSet result "databaseFragmentationThreshold[size]" (jsMulMB value))
  | "view_fragmentation_size_threshold" =>
    some (objSet result "viewFragmentationThreshold[size]" (jsMulMB value))
  | "bucket_priority" =>
    some (objSet result "threadsNumber"
      (if value.eqStr "high" then .num 8 else .num 3))
  | "flush_enabled" =>
    some (objSet result "flushEnabled"
      (if jsTruthy value then .num 1 else .num 0))
  | _ =>
    match keyMap.lookup key with
    | some mapped => some (objSet result mapped value)
    | none => some result

/-- One iteration of the `reduce`: a `null` merged value is skipped
(`value !== null`); anything else, including `undefined`, is processed. -/
def processKey (bucketName : String) (opts : Opts)
    (result : List (String × JsVal)) (key : String) :
    Option (List (String × JsVal)) :=
  match mergedVal bucketName opts key with
  | .null => some result
  | v => applyKey result key v

/-- The whole `reduce` over the merged defaults, in defaults-key order. -/
def buildParams (bucketName : String) (opts : Opts) :
    Option (List (String × JsVal)) :=
  bucketKeys.foldl (fun acc k => acc.bind fun r => processKey bucketName opts r k)
    (some [])

/-- The `params.autoCompactionDefined` computation (src/unnamed/part_001
lines 228-231): the JS-truthiness disjunction of the four compaction
threshold values as supplied by the caller (`options.…`, not the merged
defaults). -/
def acdCond (opts : Opts) : Bool :=
  jsTruthy (rawOpt opts "database_fragmentation_percentage_threshold")
    || jsTruthy (rawOpt opts "database_fragmentation_size_threshold")
    || jsTruthy (rawOpt opts "view_fragmentation_percentage_threshold")
    || jsTruthy (rawOpt opts "view_fragmentation_size_threshold")

/-- The two form fields dropped for ephemeral buckets. -/
def ephemeralDropped : List String := ["autoCompactionDefined", "replicaIndex"]

/-- `Bucket.normalizeParams` (src/unnamed/part_001 lines 150-242): the flat
REST form-field mapping, or `none` when the switch throws a `TypeError`. -/
def normalizeParams (bucketName : String) (opts : Opts) :
    Option (List (String × JsVal)) :=
  match buildParams bucketName opts with
  | none => none
  | some ps =>
    let ps2 := objSet ps "autoCompactionDefined" (.bool (acdCond opts))
    some (if (rawOpt opts "bucket_type").eqStr "ephemeral"
      then ps2.filter fun kv => !(ephemeralDropped.contains kv.1)
      else ps2)

/-- No caller overrides: every recognized key is absent from the options. -/
def noOpts : Opts := fun _ => none

/-- Options supplying only `bucket_type: "ephemeral"`. -/
def ephemeralOpts : Opts :=
  fun k => if k = "bucket_type" then some (.str "ephemeral") else none

/-- Options supplying only `database_fragmentation_percentage_threshold: 0`
(a supplied but falsy threshold). -/
def acdZeroOpts : Opts :=
  fun k =>
    if k = "database_fragmentation_percentage_threshold" then some (.num 0)
    else none

/-- Options supplying only `view_fragmentation_size_threshold: 50`. -/
def acdFiftyOpts : Opts :=
  fun k =>
    if k = "view_fragmentation_size_threshold" then some (.num 50) else none

end Bucket

/-- A concrete non-404 rejection whose upstream error body is a bare
non-empty string: `{statusCode: 500, error: "boom"}`. -/
def errStringBody : List (String × JsVal) :=
  [("statusCode", .num 500), ("error", .str "boom")]

/-- Is the value a non-empty JS array all of whose elements are strings? -/
def isNonEmptyStrList : JsVal → Bool
  | .arr [] => false
  | .arr l => l.all fun v => match v with | .str _ => true | _ => false
  | _ => false

/-! ## Theorems -/

theorem jsTruthy_length_arr_cons (x : JsVal) (xs : List JsVal) :
    jsTruthy (jsProp (.arr (x :: xs)) "length") = true := by
  show ((((x :: xs).length : Int)) != 0) = true
  simp only [bne_iff_ne, ne_eq, List.length_cons]
  omega

theorem notFound_guard_skip (x : JsVal) (xs : List JsVal) (b : Bool) :
    (if (!jsTruthy (jsProp (JsVal.arr (x :: xs)) "length") && b) = true
      then JsVal.arr [.str "Not Found"] else JsVal.arr (x :: xs)) = JsVal.arr (x :: xs) := by
  rw [jsTruthy_length_arr_cons]
  simp

/-- Claim C1, counterexample: for the non-404 rejection
`{statusCode: 500, error: "boom"}` the catch handler of `Base.send` throws
the bare string `"boom"`, not a (non-empty) list of strings. -/
theorem send_nonempty_counterexample :
    ((objGet errStringBody "statusCode").getD .und).eqNum 404 = false
    ∧ Base.normalizeError errStringBody = .str "boom"
    ∧ isNonEmptyStrList (Base.normalizeError errStringBody) = false :=
  ⟨rfl, rfl, rfl⟩

/-- Claim C1 (amended): for every failed request whose HTTP status is not
404, if the extracted upstream error detail is structured (an object or an
array) then the value `Base.send` rejects with is a non-empty list — the
`"Unknown Error"` sentinel is substituted when the detail flattens to
nothing; and if there is no truthy `error` field but a truthy transport
message, the rejection is the non-empty single-element message list. -/
theorem send_nonempty_amended (err : List (String × JsVal))
    (hs : ((objGet err "statusCode").getD .und).eqNum 404 = false) :
    (jsTruthy ((objGet err "error").getD .und) = true →
      isObjectVal (Base.errDetail err) = true →
      ∃ l, Base.normalizeError err = .arr l ∧ l ≠ [])
    ∧ (jsTruthy ((objGet err "error").getD .und) = false →
      jsTruthy (Base.messageVal err) = true →
      Base.normalizeError err = .arr [Base.messageVal err]) := by
  constructor
  · intro ht ho
    unfold Base.normalizeError
    rw [hs, ht]
    simp only [Bool.not_false, if_true, ho]
    cases hflat : jsValues (Base.errDetail err) with
    | nil =>
      refine ⟨[.str Base.unknownErrorMsg], ?_, by simp⟩
      simp [jsProp, jsTruthy]
    | cons x xs =>
      refine ⟨x :: xs, ?_, by simp⟩
      simp [jsProp, jsTruthy]
  · intro hf hm
    unfold Base.normalizeError
    rw [hs, hf]
    simp only [Bool.false_eq_true, if_false, hm, if_true]
    simp [jsProp, jsTruthy]

/-- Claim C1, witness for the amended theorem at the concrete rejection
`{statusCode: 500, error: {}}`. -/
theorem send_nonempty_amended_witness :
    ∃ l, Base.normalizeError [("statusCode", .num 500), ("error", .obj [])] = .arr l ∧ l ≠ [] :=
  (send_nonempty_amended [("statusCode", .num 500), ("error", .obj [])] rfl).1 rfl rfl

/-- Claim C2: when the upstream error body carries a structured non-empty
`error.errors` object, `Base.send` rejects with exactly its values flattened
into a list in iteration order; and when `error.errors` is empty it falls
back to the (non-empty object) `error` field, flattening its values in
iteration order. -/
theorem send_structured_errors (err : List (String × JsVal)) :
    (∀ e m, objGet err "error" = some (.obj e) →
      objGet e "errors" = some (.obj m) → m ≠ [] →
      Base.normalizeError err = .arr (m.map (·.2)))
    ∧ (∀ e, objGet err "error" = some (.obj e) →
      isEmptyVal (Base.errErrorsField err) = true → e ≠ [] →
      Base.normalizeError err = .arr (e.map (·.2))) := by
  constructor
  · intro e m he hm hne
    have herrors : Base.errErrorsField err = .obj m := by
      unfold Base.errErrorsField
      rw [he]
      simp [jsProp, hm]
    have hdetail : Base.errDetail err = .obj m := by
      unfold Base.errDetail
      rw [herrors]
      cases m with
      | nil => exact absurd rfl hne
      | cons x xs => simp [isEmptyVal]
    unfold Base.normalizeError
    rw [he]
    simp only [Option.getD_some, jsTruthy, if_true, hdetail]
    cases m with
    | nil => exact absurd rfl hne
    | cons x xs =>
      cases h404 : ((objGet err "statusCode").getD .und).eqNum 404
      · simp only [isObjectVal, if_true, jsValues, Bool.not_false, List.map_cons]
        exact notFound_guard_skip _ _ _
      · simp only [isObjectVal, if_true, jsValues, Bool.not_true, if_false, List.map_cons]
        exact notFound_guard_skip _ _ _
  · intro e he hempty hne
    have hdetail : Base.errDetail err = .obj e := by
      unfold Base.errDetail
      rw [hempty]
      unfold Base.errField
      rw [he]
      simp
    unfold Base.normalizeError
    rw [he]
    simp only [Option.getD_some, jsTruthy, if_true, hdetail]
    cases e with
    | nil => exact absurd rfl hne
    | cons x xs =>
      cases h404 : ((objGet err "statusCode").getD .und).eqNum 404
      · simp only [isObjectVal, if_true, jsValues, Bool.not_false, List.map_cons]
        exact notFound_guard_skip _ _ _
      · simp only [isObjectVal, if_true, jsValues, Bool.not_true, if_false, List.map_cons]
        exact notFound_guard_skip _ _ _

/-- Claim C2, witness: Scenario D — the failed POST rejection
`{statusCode: 400, error: {errors: {ram: "too small"}}}` normalizes to
exactly `["too small"]`. -/
theorem send_structured_errors_witness :
    Base.normalizeError
      [("statusCode", .num 400),
       ("error", .obj [("errors", .obj [("ram", .str "too small")])])]
      = .arr [.str "too small"] :=
  (send_structured_errors
      [("statusCode", .num 400),
       ("error", .obj [("errors", .obj [("ram", .str "too small")])])]).1
    [("errors", .obj [("ram", .str "too small")])]
    [("ram", .str "too small")] rfl rfl (by simp)

/-- Claim C3: a 404 rejection with no structured error body normalizes to
exactly `["Not Found"]` — both when the `error` field is present but its
extracted detail flattens to nothing, and when there is neither a truthy
`error` field nor a truthy transport message (nor a stray truthy `length`
field on the raw error, which would otherwise be rethrown). -/
theorem send_notfound (err : List (String × JsVal))
    (h404 : objGet err "statusCode" = some (.num 404)) :
    (jsTruthy ((objGet err "error").getD .und) = true →
      isObjectVal (Base.errDetail err) = true →
      jsValues (Base.errDetail err) = [] →
      Base.normalizeError err = .arr [.str "Not Found"])
    ∧ (jsTruthy ((objGet err "error").getD .und) = false →
      jsTruthy (Base.messageVal err) = false →
      jsTruthy (jsProp (.obj err) "length") = false →
      Base.normalizeError err = .arr [.str "Not Found"]) := by
  have hs : ((objGet err "statusCode").getD .und).eqNum 404 = true := by
    rw [h404]; rfl
  constructor
  · intro ht ho hflat
    unfold Base.normalizeError
    rw [hs, ht]
    simp [ho, hflat, jsProp, jsTruthy]
  · intro hf hm hl
    unfold Base.normalizeError
    rw [hs, hf]
    simp only [Bool.false_eq_true, if_false, hm, if_false]
    rw [hl]
    simp

/-- Claim C3, witness at the concrete rejections `{statusCode: 404}` and
`{statusCode: 404, error: {}}`: both normalize to `["Not Found"]`. -/
theorem send_notfound_witness :
    Base.normalizeError [("statusCode", .num 404)] = .arr [.str "Not Found"]
    ∧ Base.normalizeError [("statusCode", .num 404), ("error", .obj [])]
        = .arr [.str "Not Found"] :=
  ⟨(send_notfound [("statusCode", .num 404)] rfl).2 rfl rfl rfl,
   (send_notfound [("statusCode", .num 404), ("error", .obj [])] rfl).1 rfl rfl rfl⟩

/-- Claim C9: for every endpoint path with at most one leading slash (it does
not begin with `//`), the URL built by `Base.send` is
`{protocol}://{host}:{port}/` joined with the endpoint after stripping its
leading slash, and the stripped remainder does not itself begin with a
slash — so exactly one slash stands between the port and the path. -/
theorem send_uri_one_slash (protocol host : List Char) (port : Nat)
    (endpoint : List Char) (h : endpoint.take 2 ≠ ['/', '/']) :
    Base.buildUri protocol host port endpoint
      = protocol ++ "://".data ++ host ++ (':' :: (toString port).data)
        ++ ('/' :: Base.stripLeadSlash endpoint)
    ∧ (Base.stripLeadSlash endpoint).head? ≠ some '/' := by
  refine ⟨rfl, ?_⟩
  match endpoint with
  | [] => simp [Base.stripLeadSlash]
  | c :: rest =>
    by_cases hc : c = '/'
    · subst hc
      cases rest with
      | nil => simp [Base.stripLeadSlash]
      | cons d t =>
        have hd : d ≠ '/' := by
          intro hd; subst hd; exact h rfl
        simp [Base.stripLeadSlash, List.head?, hd]
    · have hkeep : Base.stripLeadSlash (c :: rest) = c :: rest := by
        simp only [Base.stripLeadSlash]
        split
        · next heq =>
            injection heq with h1 h2
            exact absurd h1 hc
        · rfl
      rw [hkeep]
      simp [List.head?, hc]

/-- Claim C9, witness at the concrete endpoints `"/pools"` (leading slash)
and `"pools"` (no leading slash). -/
theorem send_uri_one_slash_witness :
    ("/pools".data.take 2 ≠ ['/', '/']
      ∧ (Base.stripLeadSlash "/pools".data).head? ≠ some '/')
    ∧ ("pools".data.take 2 ≠ ['/', '/']
      ∧ Base.buildUri "http".data "localhost".data 8091 "pools".data
          = "http".data ++ "://".data ++ "localhost".data
            ++ (':' :: (toString 8091).data)
            ++ ('/' :: Base.stripLeadSlash "pools".data)) :=
  ⟨⟨by decide, (send_uri_one_slash "http".data "localhost".data 8091 "/pools".data (by decide)).2⟩,
   ⟨by decide, (send_uri_one_slash "http".data "localhost".data 8091 "pools".data (by decide)).1⟩⟩

/-- Claim C4, counterexample: `Cluster.ejectNode` does not let the Request
Layer's normalized rejection `["Not Found"]` propagate unchanged — its catch
handler re-wraps it as `new Error(err.message)`, an Error object with an
empty message. -/
theorem propagate_unchanged_counterexample :
    Cluster.ejectNode (.error (.arr [.str "Not Found"]))
        = .error (newError .und)
    ∧ Cluster.ejectNode (.error (.arr [.str "Not Found"]))
        ≠ .error (.arr [.str "Not Found"]) := by
  refine ⟨rfl, ?_⟩
  intro hcontra
  injection hcontra with h2
  exact JsVal.noConfusion h2

/-- Claim C4 (amended): `Cluster.ejectNode`, `Node.failover` and the join
POST of `Node.join` re-wrap any rejection from the Request Layer as
`new Error(err.message)` — for a normalized list-of-strings rejection the
message field is `undefined`, so the re-wrapped Error has an empty message
and the list content is lost. Successful results pass through unchanged, and
the rejection of `Node.join`'s subsequent optional rebalance call propagates
unchanged. -/
theorem propagate_rewrapped (l : List JsVal) (v e : JsVal) (b : Bool)
    (r : Except JsVal JsVal) :
    Cluster.ejectNode (.ok v) = .ok v
    ∧ Cluster.ejectNode (.error (.arr l)) = .error (newError .und)
    ∧ Node.failover (.ok v) = .ok v
    ∧ Node.failover (.error (.arr l)) = .error (newError .und)
    ∧ Node.join (.error (.arr l)) b r = .error (newError .und)
    ∧ Node.join (.ok v) true (.error e) = .error e
    ∧ Node.join (.ok v) false r = .ok () :=
  ⟨rfl, rfl, rfl, rfl, rfl, rfl, rfl⟩

/-- Claim C10: in `Cluster.addNodes` and `ServerGroup.addNodes`, the add-node
requests issued are exactly those for the nodes whose
`cluster_protocol`/`cluster_host`/`cluster_port` do not all equal the calling
handle's own coordinates — nodes matching the handle are skipped with no
request — while the resolved value remains the full node list, and the
optional rebalance flag is unaffected by the skipping (`rebalance` itself
for the cluster handle, `rebalance && cluster-back-reference-present` for
the server-group handle). -/
theorem addNodes_skip_self (c : ClusterCoords) (nodes : List Node.Handle)
    (rebalance hasCluster : Bool) (uuid : String) :
    Cluster.addNodes c nodes rebalance
      = ((nodes.filter fun n => !isSelf c n).map (Cluster.addNode c),
          nodes, rebalance)
    ∧ ServerGroup.addNodes c uuid nodes rebalance hasCluster
      = ((nodes.filter fun n => !isSelf c n).map (ServerGroup.addNode c uuid),
          nodes, rebalance && hasCluster) := by
  have h1 : ∀ ns : List Node.Handle,
      Cluster.addNodesReqs c ns
        = (ns.filter fun n => !isSelf c n).map (Cluster.addNode c) := by
    intro ns
    induction ns with
    | nil => rfl
    | cons n rest ih =>
      cases hself : isSelf c n <;>
        simp [Cluster.addNodesReqs, hself, List.filter, ih]
  have h2 : ∀ ns : List Node.Handle,
      ServerGroup.addNodesReqs c uuid ns
        = (ns.filter fun n => !isSelf c n).map (ServerGroup.addNode c uuid) := by
    intro ns
    induction ns with
    | nil => rfl
    | cons n rest ih =>
      cases hself : isSelf c n <;>
        simp [ServerGroup.addNodesReqs, hself, List.filter, ih]
  exact ⟨by simp [Cluster.addNodes, h1], by simp [ServerGroup.addNodes, h2]⟩

theorem objGet_objSet_self (l : List (String × JsVal)) (k : String) (v : JsVal) :
    objGet (Bucket.objSet l k v) k = some v := by
  induction l with
  | nil => simp [Bucket.objSet, objGet]
  | cons p rest ih =>
    obtain ⟨k', v'⟩ := p
    by_cases hp : k' = k
    · simp [Bucket.objSet, hp, objGet]
    · simp [Bucket.objSet, hp, objGet, ih]

theorem objGet_filter_dropped (l : List (String × JsVal)) (bad : List String)
    (k : String) (hk : bad.contains k = true) :
    objGet (l.filter fun kv => !(bad.contains kv.1)) k = none := by
  induction l with
  | nil => rfl
  | cons p rest ih =>
    obtain ⟨k', v'⟩ := p
    cases hb : bad.contains k' with
    | true =>
      have hstep : List.filter (fun kv => !bad.contains kv.1) ((k', v') :: rest)
          = List.filter (fun kv => !bad.contains kv.1) rest := by
        simp only [List.filter_cons, hb, Bool.not_true, Bool.false_eq_true,
          if_false]
      rw [hstep]
      exact ih
    | false =>
      have hne : k' ≠ k := by
        intro hh
        rw [hh, hk] at hb
        exact Bool.noConfusion hb
      have hstep : List.filter (fun kv => !bad.contains kv.1) ((k', v') :: rest)
          = (k', v') :: List.filter (fun kv => !bad.contains kv.1) rest := by
        simp only [List.filter_cons, hb, Bool.not_false, if_true]
      rw [hstep, objGet, if_neg hne]
      exact ih

/-- Claim C5, failing-input evaluation (code bug): with no caller overrides
`Bucket.normalizeParams` for a bucket named `"bucket1"` produces the claimed
`name`, `ramQuotaMB`, `bucketType`, `evictionPolicy`,
`conflictResolutionType` and `flushEnabled` values, but `replicaNumber` is
`0` (the coded default `document_replicas: 0` contradicts the doc comment's
`1`) and `threadsNumber` is `3` (the default `threads_number: 3` is
processed after `bucket_priority: 'high'` has set `threadsNumber` to `8` and
overwrites it). -/
theorem bucket_defaults_form_body :
    (Bucket.normalizeParams "bucket1" Bucket.noOpts).map (fun ps =>
      (objGet ps "name", objGet ps "ramQuotaMB", objGet ps "bucketType",
       objGet ps "evictionPolicy", objGet ps "conflictResolutionType",
       objGet ps "flushEnabled", objGet ps "replicaNumber",
       objGet ps "threadsNumber"))
    = some (some (.str "bucket1"), some (.num 100), some (.str "membase"),
       some (.str "valueOnly"), some (.str "seqno"), some (.num 0),
       some (.num 0), some (.num 3)) := rfl

/-- Claim C7: whenever the caller supplies `bucket_type: "ephemeral"`, the
output of `Bucket.normalizeParams` (when the call completes) contains
neither an `autoCompactionDefined` key nor a `replicaIndex` key, regardless
of every other input value. -/
theorem bucket_ephemeral_excludes (bucketName : String) (opts : Bucket.Opts)
    (ps : List (String × JsVal))
    (heph : (Bucket.rawOpt opts "bucket_type").eqStr "ephemeral" = true)
    (hout : Bucket.normalizeParams bucketName opts = some ps) :
    objGet ps "autoCompactionDefined" = none
    ∧ objGet ps "replicaIndex" = none := by
  unfold Bucket.normalizeParams at hout
  cases hbuild : Bucket.buildParams bucketName opts with
  | none => rw [hbuild] at hout; cases hout
  | some ps0 =>
    rw [hbuild, heph] at hout
    simp only [if_true, Option.some.injEq] at hout
    subst hout
    exact ⟨objGet_filter_dropped _ _ _ rfl, objGet_filter_dropped _ _ _ rfl⟩

/-- Claim C7, witness at the concrete options `{bucket_type: "ephemeral"}`. -/
theorem bucket_ephemeral_excludes_witness :
    objGet ((Bucket.normalizeParams "b" Bucket.ephemeralOpts).getD [])
        "autoCompactionDefined" = none
    ∧ objGet ((Bucket.normalizeParams "b" Bucket.ephemeralOpts).getD [])
        "replicaIndex" = none :=
  bucket_ephemeral_excludes "b" Bucket.ephemeralOpts _ rfl rfl

/-- Claim C8, counterexample: the caller supplies
`database_fragmentation_percentage_threshold: 0` — one of the four
compaction-threshold options — yet the computed `autoCompactionDefined`
field of `Bucket.normalizeParams`'s output is `false`, because the source
tests JS truthiness of the supplied values, not their presence. -/
theorem bucket_acd_counterexample :
    (Bucket.acdZeroOpts "database_fragmentation_percentage_threshold").isSome
        = true
    ∧ ((Bucket.normalizeParams "b" Bucket.acdZeroOpts).bind fun ps =>
        objGet ps "autoCompactionDefined") = some (.bool false) :=
  ⟨rfl, rfl⟩

/-- Claim C8 (amended): for every option set whose `bucket_type` is not
`"ephemeral"` (otherwise the field is dropped), the output of
`Bucket.normalizeParams` carries `autoCompactionDefined`, and it is `true`
iff the caller supplied a JS-truthy value for at least one of the four
compaction-threshold options — a supplied falsy value (`0`, `""`, `false`,
`null`) counts as not supplied, and an option present only via default never
makes it true. -/
theorem bucket_acd_supplied_truthy (bucketName : String) (opts : Bucket.Opts)
    (ps : List (String × JsVal))
    (hneph : (Bucket.rawOpt opts "bucket_type").eqStr "ephemeral" = false)
    (hout : Bucket.normalizeParams bucketName opts = some ps) :
    objGet ps "autoCompactionDefined" = some (.bool (Bucket.acdCond opts))
    ∧ (objGet ps "autoCompactionDefined" = some (.bool true)
      ↔ (jsTruthy (Bucket.rawOpt opts
            "database_fragmentation_percentage_threshold") = true
        ∨ jsTruthy (Bucket.rawOpt opts
            "database_fragmentation_size_threshold") = true
        ∨ jsTruthy (Bucket.rawOpt opts
            "view_fragmentation_percentage_threshold") = true
        ∨ jsTruthy (Bucket.rawOpt opts
            "view_fragmentation_size_threshold") = true)) := by
  unfold Bucket.normalizeParams at hout
  cases hbuild : Bucket.buildParams bucketName opts with
  | none => rw [hbuild] at hout; cases hout
  | some ps0 =>
    rw [hbuild, hneph] at hout
    simp only [Bool.false_eq_true, if_false, Option.some.injEq] at hout
    subst hout
    have hget := objGet_objSet_self ps0 "autoCompactionDefined"
      (.bool (Bucket.acdCond opts))
    refine ⟨hget, ?_⟩
    rw [hget]
    have hxb : ∀ X : Bool,
        (some (JsVal.bool X) = some (JsVal.bool true)) ↔ X = true := by
      intro X
      constructor
      · intro h
        injection h with h2
        injection h2
      · intro h
        rw [h]
    rw [hxb]
    unfold Bucket.acdCond
    simp only [Bool.or_eq_true]
    tauto

/-- Claim C8, witness for the amended theorem at the concrete options
`{view_fragmentation_size_threshold: 50}`. -/
theorem bucket_acd_supplied_truthy_witness :
    objGet ((Bucket.normalizeParams "b" Bucket.acdFiftyOpts).getD [])
        "autoCompactionDefined" = some (.bool true) :=
  (bucket_acd_supplied_truthy "b" Bucket.acdFiftyOpts _ rfl rfl).1

theorem findIndex_map {α β : Type} (f : α → β) (p : β → Bool) (l : List α) :
    findIndex p (l.map f) = findIndex (fun a => p (f a)) l := by
  induction l with
  | nil => rfl
  | cons a rest ih => simp [findIndex, ih]

theorem setNodes_length (l : List GroupOut) (i : Nat) (extra : List ONode) :
    (ServerGroup.setNodes l i extra).length = l.length := by
  induction l generalizing i with
  | nil => rfl
  | cons g rest ih =>
    cases i with
    | zero => rfl
    | succ j => simpa [ServerGroup.setNodes] using ih j

theorem setNodes_getElem_ne (l : List GroupOut) (i j : Nat)
    (extra : List ONode) (hne : j ≠ i) :
    (ServerGroup.setNodes l i extra)[j]? = l[j]? := by
  induction l generalizing i j with
  | nil => cases i <;> rfl
  | cons g rest ih =>
    cases i with
    | zero =>
      cases j with
      | zero => exact absurd rfl hne
      | succ j2 => simp [ServerGroup.setNodes]
    | succ i2 =>
      cases j with
      | zero => simp [ServerGroup.setNodes]
      | succ j2 =>
        simp only [ServerGroup.setNodes, List.getElem?_cons_succ]
        exact ih i2 j2 fun h => hne (by rw [h])

theorem setNodes_getElem_self (l : List GroupOut) (i : Nat)
    (extra : List ONode) :
    (ServerGroup.setNodes l i extra)[i]?
      = (l[i]?).map fun g => ⟨g.name, g.nodes ++ extra⟩ := by
  induction l generalizing i with
  | nil => cases i <;> rfl
  | cons g rest ih =>
    cases i with
    | zero => simp [ServerGroup.setNodes]
    | succ i2 =>
      simp only [ServerGroup.setNodes, List.getElem?_cons_succ]
      exact ih i2

theorem filterNodes_eq_filter_map (hosts : List String) (ns : List GNode) :
    ServerGroup.filterNodes hosts ns
      = (ns.filter fun n =>
          !(hosts.contains (ServerGroup.stripPort n.hostname))).map
          fun n => ⟨n.otpNode⟩ := by
  induction ns with
  | nil => rfl
  | cons n rest ih =>
    cases hb : hosts.contains (ServerGroup.stripPort n.hostname) with
    | true =>
      simp only [ServerGroup.filterNodes, hb, if_true, List.filter_cons,
        Bool.not_true, Bool.false_eq_true, if_false]
      exact ih
    | false =>
      simp only [ServerGroup.filterNodes, hb, Bool.false_eq_true, if_false,
        List.filter_cons, Bool.not_false, if_true, List.map_cons]
      rw [ih]

/-- Claim C6: provided a group with the target name exists (otherwise the
source crashes on `groups[-1]`), `addMembers` issues a single PUT whose
revision is the one extracted from the same fetch's `uri`, whose group list
has one entry per fetched group, in which every non-target group's node list
is the fetched list with each node whose port-stripped hostname is among the
requested hosts removed (and the survivors reduced to `{otpNode}`), and the
target group's node list is its filtered list with `{otpNode: "ns_1@<host>"}`
appended for each requested host, in order. -/
theorem addMembers_read_modify_write (pool name uri : String)
    (hosts : List String) (groups : List Group) (i : Nat)
    (hfind : findIndex (fun g => g.name == name) groups = some i) :
    ∃ req, ServerGroup.addMembers pool hosts name groups uri = some req
      ∧ req.rev = ServerGroup.revOf pool uri
      ∧ req.groups.length = groups.length
      ∧ (∀ j, j ≠ i → req.groups[j]? = (groups[j]?).map fun g =>
          (⟨g.name,
            (g.nodes.filter fun n =>
              !(hosts.contains (ServerGroup.stripPort n.hostname))).map
              fun n => ⟨n.otpNode⟩⟩ : GroupOut))
      ∧ req.groups[i]? = (groups[i]?).map fun g =>
          (⟨g.name,
            ((g.nodes.filter fun n =>
              !(hosts.contains (ServerGroup.stripPort n.hostname))).map
              fun n => (⟨n.otpNode⟩ : ONode))
            ++ (hosts.map fun h => ⟨"ns_1@" ++ h⟩)⟩ : GroupOut) := by
  have hfind2 : findIndex (fun g : GroupOut => g.name == name)
      (groups.map fun g =>
        (⟨g.name, ServerGroup.filterNodes hosts g.nodes⟩ : GroupOut))
      = some i := by
    rw [findIndex_map]
    exact hfind
  refine ⟨⟨ServerGroup.setNodes
      (groups.map fun g => ⟨g.name, ServerGroup.filterNodes hosts g.nodes⟩)
      i (hosts.map fun h => ⟨"ns_1@" ++ h⟩), ServerGroup.revOf pool uri⟩,
    ?_, rfl, ?_, ?_, ?_⟩
  · simp only [ServerGroup.addMembers, hfind2]
  · rw [setNodes_length, List.length_map]
  · intro j hj
    rw [setNodes_getElem_ne _ _ _ _ hj, List.getElem?_map]
    simp only [filterNodes_eq_filter_map]
  · rw [setNodes_getElem_self, List.getElem?_map, Option.map_map]
    cases hgi : groups[i]? with
    | none => rfl
    | some g => simp [Function.comp, filterNodes_eq_filter_map]

/-- Claim C6, witness: Scenario B — `addMembers(["10.0.0.5"], "group-a")`
over a fetched topology where `group-b` currently holds `10.0.0.5:8091` and
the fetched `uri` is `/pools/default/serverGroups?rev=13585112`: the PUT
carries revision `13585112`, still lists both groups, removes `10.0.0.5`
from `group-b`, and appends `{otpNode: "ns_1@10.0.0.5"}` to `group-a`. -/
theorem addMembers_read_modify_write_witness :
    ∃ req, ServerGroup.addMembers "default" ["10.0.0.5"] "group-a"
        [⟨"group-a", [⟨"10.0.0.1:8091", "ns_1@10.0.0.1"⟩]⟩,
         ⟨"group-b", [⟨"10.0.0.5:8091", "ns_1@10.0.0.5"⟩]⟩]
        "/pools/default/serverGroups?rev=13585112" = some req
      ∧ req.rev = ServerGroup.revOf "default"
          "/pools/default/serverGroups?rev=13585112"
      ∧ req.groups.length = 2
      ∧ req.groups[1]? = some ⟨"group-b", []⟩
      ∧ req.groups[0]? = some ⟨"group-a",
          [⟨"ns_1@10.0.0.1"⟩, ⟨"ns_1@10.0.0.5"⟩]⟩ :=
  match addMembers_read_modify_write "default" "group-a"
      "/pools/default/serverGroups?rev=13585112" ["10.0.0.5"]
      [⟨"group-a", [⟨"10.0.0.1:8091", "ns_1@10.0.0.1"⟩]⟩,
       ⟨"group-b", [⟨"10.0.0.5:8091", "ns_1@10.0.0.5"⟩]⟩] 0 rfl with
  | ⟨req, h1, h2, h3, h4, h5⟩ =>
    ⟨req, h1, h2, h3, by rw [h4 1 (by decide)]; rfl, by rw [h5]; rfl⟩

end CouchbaseSdk
